import Mathlib

set_option maxHeartbeats 1000000

/-
Verification development for the get-aq.py polling agent.

The definitions below are a shallow embedding of src/get-aq.py:
floating-point quantities are modelled as rationals, Python exceptions as
Except values, the Python dict built by get_closest_monitors as an
association list with insertion-order semantics (update in place, append
new keys), and the external collaborators (geopy geodesic distance and
destination, the HTTP fetch, the InfluxDB write) as function parameters.
-/

/-- Geographic point with latitude and longitude in degrees, mirroring
geopy.Point as used by get-aq.py.  Coordinates are modelled as rationals. -/
structure Point where
  latitude : ℚ
  longitude : ℚ
  deriving DecidableEq

/-- The MonitorType enumeration of get-aq.py (values OZONE, PM2.5, PM10). -/
inductive MonitorType where
  | OZONE
  | PM2p5
  | PM10
  deriving DecidableEq

/-- The ConcUnits enumeration of get-aq.py (values UG/M3 and PPB). -/
inductive ConcUnits where
  | UG_M3
  | PPB
  deriving DecidableEq

/-- The Monitor NamedTuple of get-aq.py.  The timestamp is carried as the
ISO string it was built from; numeric fields are rationals or integers. -/
structure Monitor where
  name : String
  time : String
  type : MonitorType
  loc : Point
  distance_mi : ℚ
  aqi : ℤ
  conc : ℚ
  raw_conc : ℚ
  conc_units : ConcUnits
  deriving DecidableEq

/-- One raw station record of the airnow.gov JSON response, with the fields
get-aq.py reads from it. -/
structure RawRecord where
  SiteName : String
  UTC : String
  Parameter : String
  Latitude : ℚ
  Longitude : ℚ
  AQI : ℤ
  Value : ℚ
  RawConcentration : ℚ
  Unit : String
  deriving DecidableEq

/-- The error raised by the MonitorType and ConcUnits constructors on an
unknown token (the Python ValueError carries the offending token in its
message). -/
structure UnrecognizedCode where
  token : String
  deriving DecidableEq

/-- The two fetch failures caught by get_monitors: requests.HTTPError from
raise_for_status and JSONDecodeError from rsp.json. -/
inductive FetchError where
  | httpError (status : ℕ)
  | jsonDecodeError
  deriving DecidableEq

/-- MonitorType(raw_mon "Parameter"): the enum lookup of get-aq.py line 148;
an unknown token raises ValueError carrying the token. -/
def parsePollutant (s : String) : Except UnrecognizedCode MonitorType :=
  if s = "OZONE" then .ok .OZONE
  else if s = "PM2.5" then .ok .PM2p5
  else if s = "PM10" then .ok .PM10
  else .error ⟨s⟩

/-- ConcUnits(raw_mon "Unit"): the enum lookup of get-aq.py line 154. -/
def parseConcUnits (s : String) : Except UnrecognizedCode ConcUnits :=
  if s = "UG/M3" then .ok .UG_M3
  else if s = "PPB" then .ok .PPB
  else .error ⟨s⟩

/-- Construction of one Monitor from one raw record (get-aq.py lines
144-155).  The pollutant token is evaluated before the unit token, matching
the keyword-argument evaluation order of the Monitor constructor call.  The
geodesic distance computation performed by geopy is an external collaborator
passed in as the function dist. -/
def parseMonitor (dist : Point → Point → ℚ) (origin : Point) (r : RawRecord) :
    Except UnrecognizedCode Monitor :=
  match parsePollutant r.Parameter with
  | .error e => .error e
  | .ok t =>
    match parseConcUnits r.Unit with
    | .error e => .error e
    | .ok u =>
      let mon_loc : Point := ⟨r.Latitude, r.Longitude⟩
      .ok ⟨r.SiteName, r.UTC, t, mon_loc, dist origin mon_loc, r.AQI,
           r.Value, r.RawConcentration, u⟩

/-- The parse loop of get-aq.py lines 143-156: records are processed in
order, and the first unrecognized token aborts the whole loop (the Python
exception propagates, so no monitor list is produced). -/
def parseMonitorList (dist : Point → Point → ℚ) (origin : Point) :
    List RawRecord → Except UnrecognizedCode (List Monitor)
  | [] => .ok []
  | r :: rs =>
    match parseMonitor dist origin r with
    | .error e => .error e
    | .ok m =>
      match parseMonitorList dist origin rs with
      | .error e => .error e
      | .ok ms => .ok (m :: ms)

/-- get_monitors (lines 134-160), starting from the outcome of the HTTP
fetch.  An HTTPError or JSONDecodeError is caught and logged, leaving
raw_monitors falsy, so the parse loop is skipped; the function returns the
monitor list when it is non-empty and None otherwise (line 160).  An
unrecognized token in a record propagates as an error. -/
def get_monitors (dist : Point → Point → ℚ) (origin : Point)
    (fetchResult : Except FetchError (List RawRecord)) :
    Except UnrecognizedCode (Option (List Monitor)) :=
  match fetchResult with
  | .error _ => .ok none
  | .ok raws =>
    match parseMonitorList dist origin raws with
    | .error e => .error e
    | .ok ms => .ok (if ms.isEmpty then none else some ms)

/-- Lookup in the association-list model of the Python dict closest_mons. -/
def dictGet (d : List (MonitorType × Monitor)) (k : MonitorType) : Option Monitor :=
  match d with
  | [] => none
  | (k2, v) :: rest => if k2 = k then some v else dictGet rest k

/-- Assignment in the association-list model of a Python dict: an existing
key is updated in place (keeping its position), a new key is appended,
matching dict insertion-order semantics. -/
def dictSet (d : List (MonitorType × Monitor)) (k : MonitorType) (v : Monitor) :
    List (MonitorType × Monitor) :=
  match d with
  | [] => [(k, v)]
  | (k2, v2) :: rest =>
    if k2 = k then (k, v) :: rest else (k2, v2) :: dictSet rest k v

/-- One iteration of the loop in get_closest_monitors (lines 177-181):
store the monitor when its type is absent, or when its absolute distance is
strictly smaller than the stored monitors absolute distance. -/
def gcmStep (d : List (MonitorType × Monitor)) (monitor : Monitor) :
    List (MonitorType × Monitor) :=
  match dictGet d monitor.type with
  | none => dictSet d monitor.type monitor
  | some closest =>
    if abs monitor.distance_mi < abs closest.distance_mi then
      dictSet d monitor.type monitor
    else d

/-- get_closest_monitors (lines 163-183): fold the monitors in input order
into an initially empty dict. -/
def get_closest_monitors (monitors : List Monitor) : List (MonitorType × Monitor) :=
  monitors.foldl gcmStep []

/-- Proof-internal reformulation of one gcmStep projected to a single
pollutant type: keep the incumbent unless the new monitor is strictly
closer in absolute value. -/
def pickCloser (acc : Option Monitor) (m : Monitor) : Option Monitor :=
  match acc with
  | none => some m
  | some closest =>
    if abs m.distance_mi < abs closest.distance_mi then some m else some closest

/-- Proof-internal: first minimum (by absolute distance) of a monitor list,
starting from an optional incumbent. -/
def bestOpt (acc : Option Monitor) (l : List Monitor) : Option Monitor :=
  l.foldl pickCloser acc

/-- The bounding-box step of get_monitors (lines 114-119): travel dist_mi
miles from the origin at bearing 225 for the minimum corner and at bearing
45 for the maximum corner.  The geopy destination computation is an
external collaborator passed in as dest (point, distance in miles, bearing).
The source performs no validation of dist_mi. -/
def computeBoundingBox (dest : Point → ℚ → ℚ → Point) (origin : Point)
    (dist_mi : ℚ) : Point × Point :=
  (dest origin dist_mi 225, dest origin dist_mi 45)

/-- What the main loop renders for a cycle: either the closest-monitors
table or the No monitors found message (lines 284-308). -/
inductive Report where
  | noMonitorsFound
  | table (rows : List Monitor)
  deriving DecidableEq

/-- Exceptions that can escape one cycle of the main loop: the ValueError
of an unrecognized token, or an exception from write_influxdb. -/
inductive CycleExn where
  | unrecognized (tok : String)
  | writeFailure (monitor : Monitor)
  deriving DecidableEq

/-- Observable outcome of one poll-cycle body (lines 280-311): the rendered
report if reached, the monitors for which an InfluxDB write was attempted,
whether the sleep at line 311 was reached, and an escaping exception if
any. -/
structure CycleResult where
  report : Option Report
  attemptedWrites : List Monitor
  sleeps : Bool
  raised : Option CycleExn
  deriving DecidableEq

/-- The per-monitor body of the loop at lines 292-303, restricted to the
write step: writes are attempted in order only when an InfluxDB client was
constructed; a failing write raises, so later monitors are not attempted.
Which writes fail is an external collaborator writeFails. -/
def persistLoop (clientPresent : Bool) (writeFails : Monitor → Bool) :
    List Monitor → List Monitor × Option Monitor
  | [] => ([], none)
  | m :: ms =>
    if clientPresent then
      if writeFails m then ([m], some m)
      else
        let rest := persistLoop clientPresent writeFails ms
        (m :: rest.1, rest.2)
    else ([], none)

/-- One cycle of the main loop (lines 280-311): fetch and parse via
get_monitors, reduce via get_closest_monitors, iterate over the dict values
building the table and attempting writes, print the table, sleep.  A falsy
monitors value logs No monitors found and sleeps.  Any exception other than
KeyboardInterrupt is not caught by the loop. -/
def runCycle (dist : Point → Point → ℚ) (origin : Point) (clientPresent : Bool)
    (writeFails : Monitor → Bool)
    (fetchResult : Except FetchError (List RawRecord)) : CycleResult :=
  match get_monitors dist origin fetchResult with
  | .error e => ⟨none, [], false, some (.unrecognized e.token)⟩
  | .ok none => ⟨some .noMonitorsFound, [], true, none⟩
  | .ok (some monitors) =>
    match persistLoop clientPresent writeFails
        ((get_closest_monitors monitors).map Prod.snd) with
    | (att, some m) => ⟨none, att, false, some (.writeFailure m)⟩
    | (att, none) =>
      ⟨some (.table ((get_closest_monitors monitors).map Prod.snd)), att, true, none⟩

/-- The InfluxDB client configuration of get-aq.py line 269. -/
structure InfluxClient where
  url : String
  token : String
  org : String
  bucket : String
  deriving DecidableEq

/-- Python truthiness of an optional string CLI argument: absent (None) and
the empty string are both falsy. -/
def truthyOpt : Option String → Bool
  | none => false
  | some s => !s.isEmpty

/-- Lines 268-276: the client is constructed only when url, token, org and
bucket are all truthy; otherwise influx_client is None. -/
def makeInfluxClient (url tok org bucket : Option String) : Option InfluxClient :=
  if truthyOpt url && truthyOpt tok && truthyOpt org && truthyOpt bucket then
    some ⟨url.getD "", tok.getD "", org.getD "", bucket.getD ""⟩
  else none

/-- Exceptions of the control-flow model of the main loop. -/
inductive PyExn where
  | keyboardInterrupt
  | cycleError (e : CycleExn)
  deriving DecidableEq

/-- One phase of the cycle body, indexed 0 fetching, 1 selecting,
2 persisting, 3 reporting, 4 sleeping.  A user interrupt delivered during
phase j makes that phase raise KeyboardInterrupt. -/
def runPhase (interruptAt : Option ℕ) (j : ℕ) : Except PyExn Unit :=
  if interruptAt = some j then .error .keyboardInterrupt else .ok ()

/-- The try block of lines 279-311: the five phases run in order and any
exception aborts the rest of the body. -/
def tryBody (interruptAt : Option ℕ) : Except PyExn Unit := do
  let _ ← runPhase interruptAt 0
  let _ ← runPhase interruptAt 1
  let _ ← runPhase interruptAt 2
  let _ ← runPhase interruptAt 3
  let _ ← runPhase interruptAt 4
  pure ()

/-- Outcome of one iteration of the while True loop. -/
inductive IterOutcome where
  | exits (code : ℕ)
  | continueNext
  | crash (e : PyExn)
  deriving DecidableEq

/-- Lines 278-315: the except clause catches exactly KeyboardInterrupt,
prints Quitting and breaks, after which the script falls off the end of
main and the process exits with status 0.  Any other exception escapes the
loop as a crash; a body that completes loops again. -/
def loopIteration (interruptAt : Option ℕ) : IterOutcome :=
  match tryBody interruptAt with
  | .error .keyboardInterrupt => .exits 0
  | .error e => .crash e
  | .ok _ => .continueNext

/-- A raw record is recognized when its pollutant token and unit token are
both legal enum values. -/
def recognizedRecord (r : RawRecord) : Prop :=
  (r.Parameter = "OZONE" ∨ r.Parameter = "PM2.5" ∨ r.Parameter = "PM10") ∧
  (r.Unit = "UG/M3" ∨ r.Unit = "PPB")

instance (r : RawRecord) : Decidable (recognizedRecord r) := by
  unfold recognizedRecord; infer_instance

/-- The token the ValueError carries for an unrecognized record: the
pollutant token when it is bad (it is evaluated first), otherwise the unit
token. -/
def offendingToken (r : RawRecord) : String :=
  if r.Parameter = "OZONE" ∨ r.Parameter = "PM2.5" ∨ r.Parameter = "PM10" then
    r.Unit
  else r.Parameter

/-- Concrete search origin used by witnesses and counterexamples. -/
def origin0 : Point := ⟨39, -104⟩

/-- Concrete stand-in for the external geodesic distance collaborator. -/
def distZero : Point → Point → ℚ := fun _ _ => 0

/-- Concrete stand-in for the external geodesic destination collaborator. -/
def destConst : Point → ℚ → ℚ → Point := fun p _ _ => p

/-- A well-formed ozone record. -/
def rawA : RawRecord :=
  ⟨"SiteA", "2024-06-01T12:00:00", "OZONE", 39, -105, 42, 45, 45, "PPB"⟩

/-- A well-formed PM2.5 record. -/
def rawB : RawRecord :=
  ⟨"SiteB", "2024-06-01T12:00:00", "PM2.5", 40, -105, 50, 12, 12, "UG/M3"⟩

/-- A record with an unrecognized pollutant token. -/
def rawBad : RawRecord :=
  ⟨"SiteC", "2024-06-01T12:00:00", "NO2", 40, -105, 50, 12, 12, "PPB"⟩

/-- The Monitor that parseMonitor distZero origin0 builds from rawA. -/
def monA : Monitor :=
  ⟨"SiteA", "2024-06-01T12:00:00", .OZONE, ⟨39, -105⟩, 0, 42, 45, 45, .PPB⟩

/-- The Monitor that parseMonitor distZero origin0 builds from rawB. -/
def monB : Monitor :=
  ⟨"SiteB", "2024-06-01T12:00:00", .PM2p5, ⟨40, -105⟩, 0, 50, 12, 12, .UG_M3⟩

/-- A write collaborator that fails exactly on monA. -/
def failOnMonA : Monitor → Bool := fun m => decide (m = monA)

instance {ε α : Type} [DecidableEq ε] [DecidableEq α] : DecidableEq (Except ε α) :=
  fun x y =>
    match x, y with
    | .error a, .error b =>
      if h : a = b then .isTrue (by rw [h]) else
        .isFalse (fun hh => by injection hh; contradiction)
    | .error _, .ok _ => .isFalse (fun hh => Except.noConfusion hh)
    | .ok _, .error _ => .isFalse (fun hh => Except.noConfusion hh)
    | .ok a, .ok b =>
      if h : a = b then .isTrue (by rw [h]) else
        .isFalse (fun hh => by injection hh; contradiction)

theorem parseMonitorA : parseMonitor distZero origin0 rawA = .ok monA := by
  decide

theorem parseMonitorB : parseMonitor distZero origin0 rawB = .ok monB := by
  decide

theorem dictGet_dictSet_same (d : List (MonitorType × Monitor)) (k : MonitorType)
    (v : Monitor) : dictGet (dictSet d k v) k = some v := by
  induction d with
  | nil => simp [dictSet, dictGet]
  | cons p rest ih =>
    obtain ⟨k2, v2⟩ := p
    by_cases h : k2 = k
    · subst h; simp [dictSet, dictGet]
    · simp [dictSet, dictGet, h, ih]

theorem dictGet_dictSet_ne (d : List (MonitorType × Monitor)) (k : MonitorType)
    (v : Monitor) (t : MonitorType) (h : t ≠ k) :
    dictGet (dictSet d k v) t = dictGet d t := by
  have hk : ¬ k = t := fun hh => h hh.symm
  induction d with
  | nil => simp [dictSet, dictGet, hk]
  | cons p rest ih =>
    obtain ⟨k2, v2⟩ := p
    by_cases h2 : k2 = k
    · subst h2
      simp [dictSet, dictGet, hk]
    · simp [dictSet, dictGet, h2, ih]

theorem dictGet_mem (d : List (MonitorType × Monitor)) (t : MonitorType)
    (m : Monitor) (h : dictGet d t = some m) : (t, m) ∈ d := by
  induction d with
  | nil => simp [dictGet] at h
  | cons p rest ih =>
    obtain ⟨k2, v2⟩ := p
    simp only [dictGet] at h
    split at h
    · next heq =>
      subst heq
      injection h with h
      subst h
      exact List.mem_cons_self _ _
    · exact List.mem_cons_of_mem _ (ih h)

theorem gcm_foldl_proj (l : List Monitor) :
    ∀ (d : List (MonitorType × Monitor)) (t : MonitorType),
      dictGet (List.foldl gcmStep d l) t =
        bestOpt (dictGet d t) (l.filter (fun m2 => m2.type == t)) := by
  induction l with
  | nil => intro d t; rfl
  | cons m ls ih =>
    intro d t
    by_cases ht : m.type = t
    · subst ht
      have hstep : dictGet (gcmStep d m) m.type = pickCloser (dictGet d m.type) m := by
        unfold gcmStep pickCloser
        cases hdg : dictGet d m.type with
        | none => simp [dictGet_dictSet_same]
        | some c =>
          by_cases hlt : abs m.distance_mi < abs c.distance_mi
          · simp [hlt, dictGet_dictSet_same]
          · simp [hlt, hdg]
      have hfil : (m :: ls).filter (fun m2 => m2.type == m.type) =
          m :: ls.filter (fun m2 => m2.type == m.type) := by
        simp [List.filter]
      rw [List.foldl_cons, ih (gcmStep d m) m.type, hstep, hfil]
      rfl
    · have hstep : dictGet (gcmStep d m) t = dictGet d t := by
        unfold gcmStep
        have hne : t ≠ m.type := fun hh => ht hh.symm
        cases hdg : dictGet d m.type with
        | none => exact dictGet_dictSet_ne d m.type m t hne
        | some c =>
          by_cases hlt : abs m.distance_mi < abs c.distance_mi
          · simp only [if_pos hlt]
            exact dictGet_dictSet_ne d m.type m t hne
          · simp [hlt]
      have hbeq : (m.type == t) = false := by
        cases hb : m.type == t
        · rfl
        · exact absurd (eq_of_beq hb) ht
      have hfil : (m :: ls).filter (fun m2 => m2.type == t) =
          ls.filter (fun m2 => m2.type == t) := by
        simp [List.filter, hbeq]
      rw [List.foldl_cons, ih (gcmStep d m) t, hstep, hfil]

theorem pickCloser_eq_some (acc : Option Monitor) (x m : Monitor)
    (h : pickCloser acc x = some m) : acc = some m ∨ m = x := by
  cases acc with
  | none =>
    simp only [pickCloser, Option.some.injEq] at h
    exact Or.inr h.symm
  | some c =>
    simp only [pickCloser] at h
    by_cases hlt : abs x.distance_mi < abs c.distance_mi
    · rw [if_pos hlt] at h
      injection h with h
      exact Or.inr h.symm
    · rw [if_neg hlt] at h
      exact Or.inl h

theorem bestOpt_mem (l : List Monitor) :
    ∀ (acc : Option Monitor) (m : Monitor),
      bestOpt acc l = some m → acc = some m ∨ m ∈ l := by
  induction l with
  | nil => intro acc m h; exact Or.inl h
  | cons x xs ih =>
    intro acc m h
    rcases ih (pickCloser acc x) m h with h2 | h2
    · rcases pickCloser_eq_some acc x m h2 with h3 | h3
      · exact Or.inl h3
      · exact Or.inr (by rw [h3]; exact List.mem_cons_self _ _)
    · exact Or.inr (List.mem_cons_of_mem _ h2)

theorem bestOpt_le (l : List Monitor) :
    ∀ (acc : Option Monitor) (m : Monitor), bestOpt acc l = some m →
      (∀ m2 ∈ l, abs m.distance_mi ≤ abs m2.distance_mi) ∧
      (∀ c : Monitor, acc = some c → abs m.distance_mi ≤ abs c.distance_mi) := by
  induction l with
  | nil =>
    intro acc m h
    refine ⟨by simp, fun c hc => ?_⟩
    have : bestOpt acc [] = acc := rfl
    rw [this, hc] at h
    injection h with h
    rw [h]
  | cons x xs ih =>
    intro acc m h
    obtain ⟨hxs, hacc⟩ := ih (pickCloser acc x) m h
    have hx : abs m.distance_mi ≤ abs x.distance_mi := by
      cases acc with
      | none => exact hacc x (by simp [pickCloser])
      | some c =>
        by_cases hlt : abs x.distance_mi < abs c.distance_mi
        · exact hacc x (by simp [pickCloser, hlt])
        · exact (hacc c (by simp [pickCloser, hlt])).trans (not_lt.mp hlt)
    constructor
    · intro m2 hm2
      rcases List.mem_cons.mp hm2 with rfl | h2
      · exact hx
      · exact hxs m2 h2
    · intro c hc
      subst hc
      by_cases hlt : abs x.distance_mi < abs c.distance_mi
      · exact (hacc x (by simp [pickCloser, hlt])).trans hlt.le
      · exact hacc c (by simp [pickCloser, hlt])

theorem pickCloser_isSome (acc : Option Monitor) (x : Monitor) :
    ∃ m, pickCloser acc x = some m := by
  cases acc with
  | none => exact ⟨x, rfl⟩
  | some c =>
    by_cases hlt : abs x.distance_mi < abs c.distance_mi
    · exact ⟨x, by simp [pickCloser, hlt]⟩
    · exact ⟨c, by simp [pickCloser, hlt]⟩

theorem bestOpt_some_of_acc (l : List Monitor) :
    ∀ c : Monitor, ∃ m, bestOpt (some c) l = some m := by
  induction l with
  | nil => intro c; exact ⟨c, rfl⟩
  | cons x xs ih =>
    intro c
    obtain ⟨c2, hc2⟩ := pickCloser_isSome (some c) x
    obtain ⟨m, hm⟩ := ih c2
    exact ⟨m, by rw [bestOpt, List.foldl_cons, hc2]; exact hm⟩

theorem bestOpt_cons_some (x : Monitor) (xs : List Monitor) (acc : Option Monitor) :
    ∃ m, bestOpt acc (x :: xs) = some m := by
  obtain ⟨c, hc⟩ := pickCloser_isSome acc x
  cases hx : xs with
  | nil => exact ⟨c, by rw [bestOpt, List.foldl_cons, hc]; rfl⟩
  | cons y ys =>
    obtain ⟨m, hm⟩ := bestOpt_some_of_acc (y :: ys) c
    exact ⟨m, by rw [bestOpt, List.foldl_cons, hc]; exact hm⟩

theorem bestOpt_stay (l : List Monitor) :
    ∀ c : Monitor, (∀ m2 ∈ l, abs c.distance_mi ≤ abs m2.distance_mi) →
      bestOpt (some c) l = some c := by
  induction l with
  | nil => intro c _; rfl
  | cons x xs ih =>
    intro c h
    have hcx : ¬ abs x.distance_mi < abs c.distance_mi :=
      not_lt.mpr (h x (List.mem_cons_self _ _))
    have hpick : pickCloser (some c) x = some c := by simp [pickCloser, hcx]
    rw [bestOpt, List.foldl_cons, hpick]
    exact ih c (fun m2 hm2 => h m2 (List.mem_cons_of_mem _ hm2))

theorem bestOpt_append (l1 l2 : List Monitor) (acc : Option Monitor) :
    bestOpt acc (l1 ++ l2) = bestOpt (bestOpt acc l1) l2 :=
  List.foldl_append _ _ _ _

theorem bestOpt_first (l1 : List Monitor) (m : Monitor) (l2 : List Monitor)
    (h1 : ∀ m2 ∈ l1, abs m.distance_mi < abs m2.distance_mi)
    (h2 : ∀ m2 ∈ l2, abs m.distance_mi ≤ abs m2.distance_mi) :
    bestOpt none (l1 ++ m :: l2) = some m := by
  rw [bestOpt_append]
  have hpick : pickCloser (bestOpt none l1) m = some m := by
    cases hb : bestOpt none l1 with
    | none => rfl
    | some c =>
      have hc : c ∈ l1 := by
        rcases bestOpt_mem l1 none c hb with h3 | h3
        · exact absurd h3 (by simp)
        · exact h3
      simp [pickCloser, h1 c hc]
  rw [bestOpt, List.foldl_cons]
  show bestOpt (pickCloser (bestOpt none l1) m) l2 = some m
  rw [hpick]
  exact bestOpt_stay l2 m h2

theorem gcm_proj (l : List Monitor) (t : MonitorType) :
    dictGet (get_closest_monitors l) t =
      bestOpt none (l.filter (fun m2 => m2.type == t)) :=
  gcm_foldl_proj l [] t

theorem gcm_isSome_iff (l : List Monitor) (t : MonitorType) :
    (dictGet (get_closest_monitors l) t).isSome = true ↔ t ∈ l.map Monitor.type := by
  rw [gcm_proj]
  constructor
  · intro h
    by_contra hmem
    have hfil : l.filter (fun m2 => m2.type == t) = [] := by
      rw [List.filter_eq_nil_iff]
      intro a ha hba
      exact hmem (List.mem_map.mpr ⟨a, ha, eq_of_beq hba⟩)
    rw [hfil] at h
    simp [bestOpt] at h
  · intro hmem
    obtain ⟨a, ha, hat⟩ := List.mem_map.mp hmem
    have hmf : a ∈ l.filter (fun m2 => m2.type == t) :=
      List.mem_filter.mpr ⟨ha, by rw [hat]; exact beq_self_eq_true t⟩
    cases hfil : l.filter (fun m2 => m2.type == t) with
    | nil => rw [hfil] at hmf; exact absurd hmf (List.not_mem_nil a)
    | cons x xs =>
      obtain ⟨m, hm⟩ := bestOpt_cons_some x xs none
      rw [hm]
      rfl

theorem gcm_get_spec (l : List Monitor) (t : MonitorType) (m : Monitor)
    (h : dictGet (get_closest_monitors l) t = some m) :
    m.type = t ∧ m ∈ l ∧
      ∀ m2 ∈ l, m2.type = t → abs m.distance_mi ≤ abs m2.distance_mi := by
  rw [gcm_proj] at h
  have hmem : m ∈ l.filter (fun m2 => m2.type == t) := by
    rcases bestOpt_mem _ none m h with h2 | h2
    · exact absurd h2 (by simp)
    · exact h2
  obtain ⟨hml, hmt⟩ := List.mem_filter.mp hmem
  refine ⟨eq_of_beq hmt, hml, fun m2 hm2 ht2 => ?_⟩
  have hm2f : m2 ∈ l.filter (fun m3 => m3.type == t) :=
    List.mem_filter.mpr ⟨hm2, by rw [ht2]; exact beq_self_eq_true t⟩
  exact (bestOpt_le _ none m h).1 m2 hm2f

theorem gcm_first (l1 : List Monitor) (m : Monitor) (l2 : List Monitor)
    (h1 : ∀ m2 ∈ l1, m2.type = m.type → abs m.distance_mi < abs m2.distance_mi)
    (h2 : ∀ m2 ∈ l2, m2.type = m.type → abs m.distance_mi ≤ abs m2.distance_mi) :
    dictGet (get_closest_monitors (l1 ++ m :: l2)) m.type = some m := by
  rw [gcm_proj]
  have hsplit : (l1 ++ m :: l2).filter (fun m2 => m2.type == m.type) =
      l1.filter (fun m2 => m2.type == m.type) ++
        m :: l2.filter (fun m2 => m2.type == m.type) := by
    rw [List.filter_append]
    congr 1
    simp [List.filter]
  rw [hsplit]
  apply bestOpt_first
  · intro m2 hm2
    obtain ⟨hml, hmt⟩ := List.mem_filter.mp hm2
    exact h1 m2 hml (eq_of_beq hmt)
  · intro m2 hm2
    obtain ⟨hml, hmt⟩ := List.mem_filter.mp hm2
    exact h2 m2 hml (eq_of_beq hmt)

theorem mem_dictSet (d : List (MonitorType × Monitor)) (k : MonitorType)
    (v : Monitor) : ∀ p ∈ dictSet d k v, p ∈ d ∨ p = (k, v) := by
  induction d with
  | nil =>
    intro p hp
    simp [dictSet] at hp
    exact Or.inr hp
  | cons q rest ih =>
    obtain ⟨k2, v2⟩ := q
    intro p hp
    by_cases h2 : k2 = k
    · subst h2
      simp only [dictSet, if_pos rfl] at hp
      rcases List.mem_cons.mp hp with rfl | hp2
      · exact Or.inr rfl
      · exact Or.inl (List.mem_cons_of_mem _ hp2)
    · simp only [dictSet, if_neg h2] at hp
      rcases List.mem_cons.mp hp with rfl | hp2
      · exact Or.inl (List.mem_cons_self _ _)
      · rcases ih p hp2 with h3 | h3
        · exact Or.inl (List.mem_cons_of_mem _ h3)
        · exact Or.inr h3

theorem mem_gcmStep (d : List (MonitorType × Monitor)) (m : Monitor) :
    ∀ p ∈ gcmStep d m, p ∈ d ∨ p = (m.type, m) := by
  intro p hp
  unfold gcmStep at hp
  split at hp
  · exact mem_dictSet d m.type m p hp
  · split at hp
    · exact mem_dictSet d m.type m p hp
    · exact Or.inl hp

theorem gcm_entries_aux (l : List Monitor) :
    ∀ (d : List (MonitorType × Monitor)), ∀ p ∈ List.foldl gcmStep d l,
      p ∈ d ∨ (p.2 ∈ l ∧ p.2.type = p.1) := by
  induction l with
  | nil => intro d p hp; exact Or.inl hp
  | cons m ls ih =>
    intro d p hp
    rw [List.foldl_cons] at hp
    rcases ih (gcmStep d m) p hp with h2 | h2
    · rcases mem_gcmStep d m p h2 with h3 | h3
      · exact Or.inl h3
      · subst h3
        exact Or.inr ⟨List.mem_cons_self _ _, rfl⟩
    · exact Or.inr ⟨List.mem_cons_of_mem _ h2.1, h2.2⟩

theorem gcm_entries (l : List Monitor) :
    ∀ p ∈ get_closest_monitors l, p.2 ∈ l ∧ p.2.type = p.1 := by
  intro p hp
  rcases gcm_entries_aux l [] p hp with h | h
  · exact absurd h (List.not_mem_nil p)
  · exact h

theorem mem_keys_dictSet (d : List (MonitorType × Monitor)) (k : MonitorType)
    (v : Monitor) :
    ∀ t ∈ (dictSet d k v).map Prod.fst, t ∈ d.map Prod.fst ∨ t = k := by
  intro t ht
  obtain ⟨p, hp, hpt⟩ := List.mem_map.mp ht
  rcases mem_dictSet d k v p hp with h2 | h2
  · exact Or.inl (List.mem_map.mpr ⟨p, h2, hpt⟩)
  · subst h2
    exact Or.inr hpt.symm

theorem keys_nodup_dictSet (d : List (MonitorType × Monitor)) (k : MonitorType)
    (v : Monitor) (h : (d.map Prod.fst).Nodup) :
    ((dictSet d k v).map Prod.fst).Nodup := by
  induction d with
  | nil => simp [dictSet]
  | cons q rest ih =>
    obtain ⟨k2, v2⟩ := q
    rw [List.map_cons, List.nodup_cons] at h
    by_cases h2 : k2 = k
    · subst h2
      have hset : dictSet ((k2, v2) :: rest) k2 v = (k2, v) :: rest := by
        simp [dictSet]
      rw [hset, List.map_cons, List.nodup_cons]
      exact h
    · simp only [dictSet, if_neg h2, List.map_cons, List.nodup_cons]
      refine ⟨fun hmem => ?_, ih h.2⟩
      rcases mem_keys_dictSet rest k v k2 hmem with h3 | h3
      · exact h.1 h3
      · exact h2 h3

theorem keys_nodup_gcmStep (d : List (MonitorType × Monitor)) (m : Monitor)
    (h : (d.map Prod.fst).Nodup) : ((gcmStep d m).map Prod.fst).Nodup := by
  unfold gcmStep
  split
  · exact keys_nodup_dictSet d m.type m h
  · split
    · exact keys_nodup_dictSet d m.type m h
    · exact h

theorem gcm_keys_nodup_aux (l : List Monitor) :
    ∀ (d : List (MonitorType × Monitor)), (d.map Prod.fst).Nodup →
      ((List.foldl gcmStep d l).map Prod.fst).Nodup := by
  induction l with
  | nil => intro d h; exact h
  | cons m ls ih =>
    intro d h
    rw [List.foldl_cons]
    exact ih (gcmStep d m) (keys_nodup_gcmStep d m h)

theorem gcm_keys_nodup (l : List Monitor) :
    ((get_closest_monitors l).map Prod.fst).Nodup :=
  gcm_keys_nodup_aux l [] (by simp)

theorem parsePollutant_err (s : String)
    (h : ¬(s = "OZONE" ∨ s = "PM2.5" ∨ s = "PM10")) :
    parsePollutant s = .error ⟨s⟩ := by
  push_neg at h
  simp [parsePollutant, h.1, h.2.1, h.2.2]

theorem parsePollutant_ok (s : String)
    (h : s = "OZONE" ∨ s = "PM2.5" ∨ s = "PM10") :
    ∃ t, parsePollutant s = .ok t := by
  rcases h with h | h | h <;> subst h
  · exact ⟨.OZONE, rfl⟩
  · exact ⟨.PM2p5, by decide⟩
  · exact ⟨.PM10, by decide⟩

theorem parseConcUnits_err (s : String) (h : ¬(s = "UG/M3" ∨ s = "PPB")) :
    parseConcUnits s = .error ⟨s⟩ := by
  push_neg at h
  simp [parseConcUnits, h.1, h.2]

theorem parseConcUnits_ok (s : String) (h : s = "UG/M3" ∨ s = "PPB") :
    ∃ u, parseConcUnits s = .ok u := by
  rcases h with h | h <;> subst h
  · exact ⟨.UG_M3, rfl⟩
  · exact ⟨.PPB, by decide⟩

theorem parseMonitor_err (dist : Point → Point → ℚ) (origin : Point)
    (r : RawRecord) (h : ¬ recognizedRecord r) :
    parseMonitor dist origin r = .error ⟨offendingToken r⟩ := by
  by_cases hp : r.Parameter = "OZONE" ∨ r.Parameter = "PM2.5" ∨ r.Parameter = "PM10"
  · have hu : ¬(r.Unit = "UG/M3" ∨ r.Unit = "PPB") := fun hu => h ⟨hp, hu⟩
    obtain ⟨t, ht⟩ := parsePollutant_ok r.Parameter hp
    have htok : offendingToken r = r.Unit := by rw [offendingToken, if_pos hp]
    rw [parseMonitor, ht, parseConcUnits_err r.Unit hu, htok]
  · have htok : offendingToken r = r.Parameter := by rw [offendingToken, if_neg hp]
    rw [parseMonitor, parsePollutant_err r.Parameter hp, htok]

theorem parseMonitor_ok (dist : Point → Point → ℚ) (origin : Point)
    (r : RawRecord) (h : recognizedRecord r) :
    ∃ m, parseMonitor dist origin r = .ok m := by
  obtain ⟨t, ht⟩ := parsePollutant_ok r.Parameter h.1
  obtain ⟨u, hu⟩ := parseConcUnits_ok r.Unit h.2
  refine ⟨⟨r.SiteName, r.UTC, t, ⟨r.Latitude, r.Longitude⟩,
    dist origin ⟨r.Latitude, r.Longitude⟩, r.AQI, r.Value, r.RawConcentration, u⟩, ?_⟩
  rw [parseMonitor, ht, hu]

theorem parseMonitorList_err (dist : Point → Point → ℚ) (origin : Point)
    (raws : List RawRecord) (h : ∃ r ∈ raws, ¬ recognizedRecord r) :
    ∃ r ∈ raws, ¬ recognizedRecord r ∧
      parseMonitorList dist origin raws = .error ⟨offendingToken r⟩ := by
  induction raws with
  | nil => simp at h
  | cons r rs ih =>
    by_cases hr : recognizedRecord r
    · have h2 : ∃ r2 ∈ rs, ¬ recognizedRecord r2 := by
        obtain ⟨r2, hmem, hbad⟩ := h
        rcases List.mem_cons.mp hmem with rfl | hmem2
        · exact absurd hr hbad
        · exact ⟨r2, hmem2, hbad⟩
      obtain ⟨r2, hmem2, hbad2, heq2⟩ := ih h2
      obtain ⟨m, hm⟩ := parseMonitor_ok dist origin r hr
      refine ⟨r2, List.mem_cons_of_mem _ hmem2, hbad2, ?_⟩
      rw [parseMonitorList, hm, heq2]
    · refine ⟨r, List.mem_cons_self _ _, hr, ?_⟩
      rw [parseMonitorList, parseMonitor_err dist origin r hr]

theorem persistLoop_skip (writeFails : Monitor → Bool) (l : List Monitor) :
    persistLoop false writeFails l = ([], none) := by
  cases l <;> rfl

theorem persistLoop_stops (writeFails : Monitor → Bool) (l1 : List Monitor)
    (m : Monitor) (l2 : List Monitor) (h1 : ∀ m2 ∈ l1, writeFails m2 = false)
    (hm : writeFails m = true) :
    persistLoop true writeFails (l1 ++ m :: l2) = (l1 ++ [m], some m) := by
  induction l1 with
  | nil => simp [persistLoop, hm]
  | cons x xs ih =>
    have hx : writeFails x = false := h1 x (List.mem_cons_self _ _)
    have hrest := ih (fun m2 hm2 => h1 m2 (List.mem_cons_of_mem _ hm2))
    simp [persistLoop, hx, hrest]

theorem runCycle_raised (dist : Point → Point → ℚ) (origin : Point)
    (clientPresent : Bool) (writeFails : Monitor → Bool)
    (fetchResult : Except FetchError (List RawRecord)) (r : CycleResult)
    (hr : runCycle dist origin clientPresent writeFails fetchResult = r)
    (h : r.raised.isSome = true) : r.report = none ∧ r.sleeps = false := by
  unfold runCycle at hr
  split at hr
  · rw [← hr]
    exact ⟨rfl, rfl⟩
  · rw [← hr] at h
    simp at h
  · split at hr
    · rw [← hr]
      exact ⟨rfl, rfl⟩
    · rw [← hr] at h
      simp at h

theorem runCycle_noclient (dist : Point → Point → ℚ) (origin : Point)
    (writeFails : Monitor → Bool)
    (fetchResult : Except FetchError (List RawRecord)) (r : CycleResult)
    (hr : runCycle dist origin false writeFails fetchResult = r) :
    r.attemptedWrites = [] ∧ (r.raised = none → r.report.isSome = true) := by
  unfold runCycle at hr
  split at hr
  · rw [← hr]
    exact ⟨rfl, fun h => by simp at h⟩
  · rw [← hr]
    exact ⟨rfl, fun _ => rfl⟩
  · split at hr
    · next att m heq =>
      rw [persistLoop_skip writeFails] at heq
      simp at heq
    · next att heq =>
      rw [persistLoop_skip writeFails] at heq
      injection heq with h1 h2
      rw [← hr, ← h1]
      exact ⟨rfl, fun _ => rfl⟩

/-- Claim C1: get_closest_monitors keeps exactly one monitor per pollutant
type present in the input (a type is a key of the mapping exactly when it
occurs in the input); the kept monitor is an input monitor of that type
whose absolute distance is at most the absolute distance of every other
input monitor of the same type; and because replacement happens only on a
strictly smaller absolute distance, a monitor that is strictly closer than
everything before it and at least as close as everything after it is the
one retained, so on an exact tie the first-seen monitor wins. -/
theorem claim_C1 (l : List Monitor) :
    (∀ t : MonitorType,
      (dictGet (get_closest_monitors l) t).isSome = true ↔
        t ∈ l.map Monitor.type) ∧
    (∀ (t : MonitorType) (m : Monitor),
      dictGet (get_closest_monitors l) t = some m →
      m.type = t ∧ m ∈ l ∧
        ∀ m2 ∈ l, m2.type = t → abs m.distance_mi ≤ abs m2.distance_mi) ∧
    (∀ (l1 : List Monitor) (m : Monitor) (l2 : List Monitor),
      l = l1 ++ m :: l2 →
      (∀ m2 ∈ l1, m2.type = m.type → abs m.distance_mi < abs m2.distance_mi) →
      (∀ m2 ∈ l2, m2.type = m.type → abs m.distance_mi ≤ abs m2.distance_mi) →
      dictGet (get_closest_monitors l) m.type = some m) := by
  refine ⟨gcm_isSome_iff l, fun t m h => gcm_get_spec l t m h, ?_⟩
  intro l1 m l2 hl h1 h2
  rw [hl]
  exact gcm_first l1 m l2 h1 h2

/-- Witness for claim C1 at a concrete input: with monA first and monB of a
different type, the ozone entry is monA. -/
theorem claim_C1_witness :
    dictGet (get_closest_monitors [monA, monB]) MonitorType.OZONE = some monA :=
  (claim_C1 [monA, monB]).2.2 [] monA [monB] rfl (by decide) (by decide)

/-- Claim C2: when some raw record carries an unrecognized pollutant or
unit token, get_monitors on a successful fetch fails with an
UnrecognizedCode error carrying the offending token of an offending record
(the first one, since the Python loop aborts there), so no monitor list is
produced for that call. -/
theorem claim_C2 (dist : Point → Point → ℚ) (origin : Point)
    (raws : List RawRecord) (h : ∃ r ∈ raws, ¬ recognizedRecord r) :
    ∃ r ∈ raws, ¬ recognizedRecord r ∧
      get_monitors dist origin (.ok raws) = .error ⟨offendingToken r⟩ := by
  obtain ⟨r, hmem, hbad, heq⟩ := parseMonitorList_err dist origin raws h
  refine ⟨r, hmem, hbad, ?_⟩
  show (match parseMonitorList dist origin raws with
    | .error e => .error e
    | .ok ms => .ok (if ms.isEmpty then none else some ms)) =
      Except.error ⟨offendingToken r⟩
  rw [heq]

/-- Witness for claim C2: a single record with pollutant token NO2 makes
get_monitors fail with the offending token. -/
theorem claim_C2_witness :
    ∃ r ∈ [rawBad], ¬ recognizedRecord r ∧
      get_monitors distZero origin0 (.ok [rawBad]) =
        .error ⟨offendingToken r⟩ :=
  claim_C2 distZero origin0 [rawBad] ⟨rawBad, by decide, by decide⟩

/-- Claim C3: when the fetch fails (HTTP error status or malformed JSON),
the cycle raises nothing, reports No monitors found instead of a table, and
proceeds to the sleep step. -/
theorem claim_C3 (dist : Point → Point → ℚ) (origin : Point)
    (clientPresent : Bool) (writeFails : Monitor → Bool) (e : FetchError) :
    runCycle dist origin clientPresent writeFails (.error e) =
      ⟨some .noMonitorsFound, [], true, none⟩ := rfl

/-- Counterexample for claim C4 as stated: on an empty raw-record sequence,
get_monitors returns the missing value None (line 160 of the source), not
the empty monitor list the claim requires. -/
theorem claim_C4_counterexample :
    get_monitors distZero origin0 (.ok []) = .ok none ∧
      (Except.ok none : Except UnrecognizedCode (Option (List Monitor))) ≠
        .ok (some []) := ⟨rfl, by simp⟩

/-- Claim C4 amended: parse applied to an empty raw-record sequence
succeeds (it is not an error) but returns the missing value None rather
than an empty sequence, and selectClosest applied to an empty monitor list
returns the empty mapping. -/
theorem claim_C4_amended (dist : Point → Point → ℚ) (origin : Point) :
    get_monitors dist origin (.ok []) = .ok none ∧
      get_closest_monitors [] = [] := ⟨rfl, rfl⟩

/-- Counterexample for claim C5 as stated: the bounding-box computation at
the invalid radius -1 succeeds and returns a box; it does not fail with
InvalidArgument, because the source validates nothing. -/
theorem claim_C5_counterexample :
    computeBoundingBox destConst origin0 (-1) = (origin0, origin0) := rfl

/-- Claim C5 amended: the bounding-box computation is total and performs no
radius validation; even for a non-positive radius it simply passes the
radius through to the two destination calls (bearings 225 and 45) and has
no failure modes and no side effects. -/
theorem claim_C5_amended (dest : Point → ℚ → ℚ → Point) (origin : Point)
    (dist_mi : ℚ) (_h : dist_mi ≤ 0) :
    computeBoundingBox dest origin dist_mi =
      (dest origin dist_mi 225, dest origin dist_mi 45) := rfl

/-- Witness for the amended claim C5 at the concrete radius -2. -/
theorem claim_C5_amended_witness :
    computeBoundingBox destConst origin0 (-2) =
      (destConst origin0 (-2) 225, destConst origin0 (-2) 45) :=
  claim_C5_amended destConst origin0 (-2) (by norm_num)

/-- Counterexample for claim C7 as stated: with a client configured and the
write for monA failing, the cycle attempts only monA, never attempts monB,
renders no report and skips the sleep: the write failure raises out of the
cycle instead of letting the remaining monitors be attempted. -/
theorem claim_C7_counterexample :
    runCycle distZero origin0 true failOnMonA (.ok [rawA, rawB]) =
      ⟨none, [monA], false, some (.writeFailure monA)⟩ ∧
    monB ∉ ([monA] : List Monitor) := by
  refine ⟨by decide, by decide⟩

/-- Claim C7 amended: a failing write aborts the per-monitor loop at the
failing monitor, so exactly the monitors up to and including it are
attempted and the ones after it are not; and whenever a cycle raises, the
report is not rendered and the sleep is skipped (only KeyboardInterrupt is
caught, so the exception terminates the loop). -/
theorem claim_C7_amended :
    (∀ (writeFails : Monitor → Bool) (l1 : List Monitor) (m : Monitor)
        (l2 : List Monitor), (∀ m2 ∈ l1, writeFails m2 = false) →
        writeFails m = true →
        persistLoop true writeFails (l1 ++ m :: l2) = (l1 ++ [m], some m)) ∧
    (∀ (dist : Point → Point → ℚ) (origin : Point) (clientPresent : Bool)
        (writeFails : Monitor → Bool)
        (fetchResult : Except FetchError (List RawRecord)) (r : CycleResult),
        runCycle dist origin clientPresent writeFails fetchResult = r →
        r.raised.isSome = true → r.report = none ∧ r.sleeps = false) :=
  ⟨fun writeFails l1 m l2 h1 hm => persistLoop_stops writeFails l1 m l2 h1 hm,
   fun dist origin clientPresent writeFails fetchResult r hr h =>
     runCycle_raised dist origin clientPresent writeFails fetchResult r hr h⟩

/-- Witness for the amended claim C7: with no earlier monitors and the
write failing on monA, the loop stops at monA and monB is not attempted. -/
theorem claim_C7_amended_witness :
    persistLoop true failOnMonA ([] ++ monA :: [monB]) =
      ([] ++ [monA], some monA) :=
  claim_C7_amended.1 failOnMonA [] monA [monB] (by decide) (by decide)

/-- Claim C8: a user interrupt delivered during any of the five phases of
the cycle body, including the inter-cycle sleep (phase 4), is caught by the
except KeyboardInterrupt handler, which breaks out of the loop: the
iteration outcome is a clean exit with status 0, never a continued cycle
and never a crash. -/
theorem claim_C8 (i : ℕ) (h : i < 5) : loopIteration (some i) = .exits 0 := by
  interval_cases i <;> rfl

/-- Witness for claim C8 at the sleep phase. -/
theorem claim_C8_witness : loopIteration (some 4) = .exits 0 :=
  claim_C8 4 (by decide)

/-- Claim C9: every entry of the mapping returned by get_closest_monitors
pairs a pollutant type with an unmodified element of the input list of that
exact type, the keys are pairwise distinct, and the key set is exactly the
set of pollutant types occurring in the input. -/
theorem claim_C9 (l : List Monitor) :
    (∀ p ∈ get_closest_monitors l, p.2 ∈ l ∧ p.2.type = p.1) ∧
    ((get_closest_monitors l).map Prod.fst).Nodup ∧
    (∀ t : MonitorType,
      (∃ m, (t, m) ∈ get_closest_monitors l) ↔ t ∈ l.map Monitor.type) := by
  refine ⟨gcm_entries l, gcm_keys_nodup l, fun t => ⟨?_, ?_⟩⟩
  · rintro ⟨m, hm⟩
    have h2 := gcm_entries l (t, m) hm
    exact List.mem_map.mpr ⟨m, h2.1, h2.2⟩
  · intro ht
    have h2 := (gcm_isSome_iff l t).mpr ht
    cases hdg : dictGet (get_closest_monitors l) t with
    | none => rw [hdg] at h2; simp at h2
    | some m => exact ⟨m, dictGet_mem _ _ _ hdg⟩

/-- Witness for claim C9: the entry built from the singleton input list is
the input monitor with its own type. -/
theorem claim_C9_witness : monA ∈ [monA] ∧ monA.type = MonitorType.OZONE :=
  (claim_C9 [monA]).1 (MonitorType.OZONE, monA) (by decide)

/-- Claim C10: when any of the four sink options is absent, no InfluxDB
client is constructed, and then every cycle attempts no write at all while
a cycle that raises nothing still renders a report. -/
theorem claim_C10 (url tok org bucket : Option String)
    (h : url = none ∨ tok = none ∨ org = none ∨ bucket = none) :
    makeInfluxClient url tok org bucket = none ∧
    ∀ (dist : Point → Point → ℚ) (origin : Point)
      (writeFails : Monitor → Bool)
      (fetchResult : Except FetchError (List RawRecord)) (r : CycleResult),
      runCycle dist origin (makeInfluxClient url tok org bucket).isSome
          writeFails fetchResult = r →
      r.attemptedWrites = [] ∧ (r.raised = none → r.report.isSome = true) := by
  have hnone : makeInfluxClient url tok org bucket = none := by
    rcases h with h | h | h | h <;> subst h <;> simp [makeInfluxClient, truthyOpt]
  refine ⟨hnone, ?_⟩
  intro dist origin writeFails fetchResult r hr
  rw [hnone] at hr
  exact runCycle_noclient dist origin writeFails fetchResult r hr

/-- Witness for claim C10: with the url option absent, no client exists and
a concrete cycle attempts no write. -/
theorem claim_C10_witness :
    makeInfluxClient none (some "tk") (some "og") (some "bk") = none ∧
    (runCycle distZero origin0
        (makeInfluxClient none (some "tk") (some "og") (some "bk")).isSome
        failOnMonA (.ok [rawA])).attemptedWrites = [] := by
  have h := claim_C10 none (some "tk") (some "og") (some "bk") (Or.inl rfl)
  exact ⟨h.1, (h.2 distZero origin0 failOnMonA (.ok [rawA]) _ rfl).1⟩
